import Mathlib

/-!
Shallow embedding of the parts of n0cte/ipld-eth-indexer that the claims below
concern: src/pkg/eth/transformer.go (the StateDiffTransformer) and
src/unnamed/part_000 (package historical, the gap finder).
-/

/-- Error values returned by the Go code. Only the identity of an error matters
for the control flow modelled here, so a small inductive suffices. -/
inductive GoErr where
  | decodeError
  | shapeMismatch
  | lenError
  | storeError
  | other (n : Nat)
deriving DecidableEq, Repr

/-- Shape check of Transform, transformer.go line 87. Note that the three
inequalities are joined by Go conjunction, exactly as in the source. -/
def shapeMismatchCheck (nTx nTxTrie nRct nRctTrie : Nat) : Bool :=
  (nTx != nTxTrie) && (nRct != nRctTrie) && (nTx != nRct)

/-- Modelled from the spec: the orchestrator MUST reject any payload whose four
node-list lengths are not all equal (spec 4.1 Post, spec 8 Shape equality). -/
def specShapeMismatchCheck (nTx nTxTrie nRct nRctTrie : Nat) : Bool :=
  !((nTx == nTxTrie) && (nRct == nRctTrie) && (nTx == nRct) && (nTxTrie == nRctTrie))

/-- What Transform does at lines 87-94: if the length check fires it returns
(0, ShapeMismatch) before any transaction is opened, otherwise it proceeds to
open the database transaction. -/
inductive PreBeginStep where
  | rejected (ret : Int × Option GoErr)
  | beginTx
deriving DecidableEq, Repr

/-- Transform lines 87-94. -/
def transformShapeGate (nTx nTxTrie nRct nRctTrie : Nat) : PreBeginStep :=
  if shapeMismatchCheck nTx nTxTrie nRct nRctTrie then
    PreBeginStep.rejected (0, some GoErr.shapeMismatch)
  else
    PreBeginStep.beginTx

/-- Result of one fallible step of Transform. The step bodies are database and
go-ethereum library calls outside this repository slice, so each step is
abstracted by its outcome: success, an error return, or a Go panic carrying a
value. -/
inductive StepRes where
  | ok
  | fail (e : GoErr)
  | panicked (p : Nat)
deriving DecidableEq, Repr

/-- Outcomes of the five steps Transform runs after the database transaction is
opened (transformer.go lines 106-138), together with the result of tx.Commit
(line 102, none = commit succeeded). -/
structure TransformRun where
  processHeader : StepRes
  processUncles : StepRes
  processReceiptsAndTxs : StepRes
  decodeStateObject : StepRes
  processStateAndStorage : StepRes
  commitResult : Option GoErr
deriving DecidableEq, Repr

/-- How the body of Transform after Beginx terminates: a return statement with
the (already evaluated, unnamed) return values, or a panic. -/
inductive BodyOut where
  | ret (v : Int × Option GoErr)
  | panicked (p : Nat)
deriving DecidableEq, Repr

/-- Final fate of the database transaction. -/
inductive TxFate where
  | rolledBack
  | commitAttempted
deriving DecidableEq, Repr

/-- What the caller of Transform observes. -/
inductive FnOut where
  | returns (v : Int × Option GoErr)
  | panics (p : Nat)
deriving DecidableEq, Repr

/-- Lines 106-140 of Transform. Go scoping is modelled faithfully: line 108
(headerID, err := sdt.processHeader(...)) reuses the function-scope err, while
each of lines 113, 117, 132 and 136 is of the form (if err := ...; err != nil)
and so declares a NEW err visible only inside the if statement. Those failures
therefore never reach the function-scope err that the deferred function reads;
the first component of the result is the function-scope err at exit, the second
is how the body terminated. Return values are unnamed, so (return 0, err) fixes
the returned pair at the return site. -/
def transformBody (blockNumber : Int) (r : TransformRun) : Option GoErr × BodyOut :=
  match r.processHeader with
  | StepRes.panicked p => (none, BodyOut.panicked p)
  | StepRes.fail e => (some e, BodyOut.ret (0, some e))
  | StepRes.ok =>
    match r.processUncles with
    | StepRes.panicked p => (none, BodyOut.panicked p)
    | StepRes.fail e => (none, BodyOut.ret (0, some e))
    | StepRes.ok =>
      match r.processReceiptsAndTxs with
      | StepRes.panicked p => (none, BodyOut.panicked p)
      | StepRes.fail e => (none, BodyOut.ret (0, some e))
      | StepRes.ok =>
        match r.decodeStateObject with
        | StepRes.panicked p => (none, BodyOut.panicked p)
        | StepRes.fail e => (none, BodyOut.ret (0, some e))
        | StepRes.ok =>
          match r.processStateAndStorage with
          | StepRes.panicked p => (none, BodyOut.panicked p)
          | StepRes.fail e => (none, BodyOut.ret (0, some e))
          | StepRes.ok => (none, BodyOut.ret (blockNumber, none))

/-- The deferred function of Transform (lines 95-104). On a panic it rolls back
and re-panics with the recovered value; otherwise it reads the function-scope
err: non-nil means rollback, nil means tx.Commit() is called and its error is
assigned to the local err, which cannot change the already fixed unnamed return
values (hence the commitResult argument does not influence the result). -/
def runDeferred (outerErr : Option GoErr) (_commitResult : Option GoErr)
    (body : BodyOut) : TxFate × FnOut :=
  match body with
  | BodyOut.panicked p => (TxFate.rolledBack, FnOut.panics p)
  | BodyOut.ret v =>
    match outerErr with
    | some _ => (TxFate.rolledBack, FnOut.returns v)
    | none => (TxFate.commitAttempted, FnOut.returns v)

/-- Transform from Beginx (line 91) to the end: run the body, then the deferred
function. -/
def transformAfterBegin (blockNumber : Int) (r : TransformRun) : TxFate × FnOut :=
  runDeferred (transformBody blockNumber r).1 r.commitResult (transformBody blockNumber r).2

/-- A log entry as seen by processReceiptsAndTxs: its topics (as hex strings,
topic.Hex()) and its emitting address (log.Address.String()). -/
structure LogEntry where
  topics : List String
  address : String
deriving DecidableEq, Repr

/-- One execution of (topicSets[i] = append(topicSets[i], topic.Hex())) from
transformer.go line 236: append t to the list at index i, or index out of range
(a Go panic, modelled as none) when i is not below the length. -/
def appendAt (sets : List (List String)) (i : Nat) (t : String) :
    Option (List (List String)) :=
  if h : i < sets.length then some (sets.set i (sets.get ⟨i, h⟩ ++ [t])) else none

/-- The inner loop of lines 235-237: (for i, topic := range log.Topics), with i
running from the given start index. -/
def appendTopicsAux (sets : List (List String)) (topics : List String) (i : Nat) :
    Option (List (List String)) :=
  match topics with
  | [] => some sets
  | t :: ts =>
    match appendAt sets i t with
    | none => none
    | some s2 => appendTopicsAux s2 ts (i + 1)

/-- The outer loop of lines 234-239 over the logs of one receipt, threading the
topicSets accumulator. -/
def extractTopicSetsFrom (sets : List (List String)) (logs : List LogEntry) :
    Option (List (List String)) :=
  match logs with
  | [] => some sets
  | log :: rest =>
    match appendTopicsAux sets log.topics 0 with
    | none => none
    | some s2 => extractTopicSetsFrom s2 rest

/-- Lines 232-239 for one receipt: topicSets := make([][]string, 4) followed by
the double loop over the receipt logs and their topics. -/
def extractTopicSets (logs : List LogEntry) : Option (List (List String)) :=
  extractTopicSetsFrom (List.replicate 4 []) logs

/-- Modelled from the spec: position i of topicN holds the N-th topic of the
i-th log, and an empty-string slot stands at position i when the i-th log has
fewer than N+1 topics (spec 3 Invariants, spec 8 Topic alignment). -/
def specTopicSets (logs : List LogEntry) : List (List String) :=
  (List.range 4).map (fun n => logs.map (fun l => l.topics.getD n ""))

/-- The column that the source actually produces for topic position n: the n-th
topics of exactly those logs having more than n topics, in log order. -/
def topicColumn (logs : List LogEntry) (n : Nat) : List String :=
  logs.filterMap (fun l => l.topics[n]?)

/-- Reference description of one run of the inner loop: distribute the topics of
one log over the heads of the accumulated per-position lists. -/
def distributeTopics : List (List String) → List String → List (List String)
  | sets, [] => sets
  | [], _ :: _ => []
  | s :: sets, t :: ts => (s ++ [t]) :: distributeTopics sets ts

/-- A concrete receipt log list: the first log carries one topic, the second
carries two. -/
def c3Logs : List LogEntry :=
  [⟨["a"], "A"⟩, ⟨["b", "c"], "A"⟩]

/-- The per-receipt loop of processReceiptsAndTxs restricted to topic
extraction: one topicSets computation per receipt, aborting (none) as soon as
one receipt panics. -/
def extractPerReceipt : List (List LogEntry) → Option (List (List (List String)))
  | [] => some []
  | r :: rs =>
    match extractTopicSets r with
    | none => none
    | some s => (extractPerReceipt rs).map (fun l => s :: l)

/-- The key set of the Go map mappedContracts built on lines 233-239: the log
addresses of the receipt with duplicates removed. -/
def dedupAddresses (logs : List LogEntry) : List String :=
  (logs.map (fun l => l.address)).dedup

/-- An admissible iteration order of the Go map mappedContracts: the language
specifies no order for (for addr := range mappedContracts), so any enumeration
of the key set, i.e. any permutation of it, is a possible run. -/
def isMapIterOrder (logs : List LogEntry) (order : List String) : Prop :=
  order.Perm (dedupAddresses logs)

/-- Lines 241-244: logContracts is built by appending each ranged-over key in
iteration order. -/
def logContractsOf (order : List String) : List String :=
  order.foldl (fun acc addr => acc ++ [addr]) []

/-- Logs from two distinct contract addresses. -/
def c4Logs : List LogEntry :=
  [⟨[], "0xaa"⟩, ⟨[], "0xbb"⟩]

/-- Node types of statediff state and storage nodes. -/
inductive StateNodeType where
  | branch
  | extension
  | leaf
  | removed
deriving DecidableEq, Repr

/-- An rlp value as produced by decoding into a generic interface list: a byte
string or a nested list. -/
inductive RLPItem where
  | bytes (b : List Nat)
  | list (items : List RLPItem)

/-- The go-ethereum state.Account fields used on lines 328-333. -/
structure Account where
  nonce : Nat
  balance : Int
  root : String
  codeHash : List Nat

/-- The StateAccountModel row written on lines 328-333. -/
structure StateAccountModel where
  balance : String
  nonce : Nat
  codeHash : List Nat
  storageRoot : String
deriving DecidableEq, Repr

/-- The slice of a statediff state node that the account logic reads. -/
structure StateNodeIn where
  nodeType : StateNodeType
  nodeValue : List Nat
deriving DecidableEq, Repr

/-- Outcome of the account logic for one state node: no StateAccount row
(non-leaf), a row, an error return aborting Transform, or a Go panic (the
type assertion on the second decoded element failing). -/
inductive AccountOutcome where
  | noRow
  | row (m : StateAccountModel)
  | errOut (e : GoErr)
  | panicked
deriving DecidableEq, Repr

/-- Lines 316-337 of processStateAndStorage: the state-leaf account logic. The
two rlp decoders are external go-ethereum library calls and are parameters; the
first models rlp.DecodeBytes into a generic interface list, the second
rlp.DecodeBytes into a state.Account. -/
def processStateLeaf (decodeList : List Nat → Option (List RLPItem))
    (decodeAccount : List Nat → Option Account) (node : StateNodeIn) :
    AccountOutcome :=
  if node.nodeType = StateNodeType.leaf then
    match decodeList node.nodeValue with
    | none => AccountOutcome.errOut GoErr.decodeError
    | some i =>
      if i.length ≠ 2 then AccountOutcome.errOut GoErr.lenError
      else
        match i with
        | [_, RLPItem.bytes b] =>
          match decodeAccount b with
          | none => AccountOutcome.errOut GoErr.decodeError
          | some a =>
            AccountOutcome.row ⟨toString a.balance, a.nonce, a.codeHash, a.root⟩
        | _ => AccountOutcome.panicked
  else AccountOutcome.noRow

/-- A decode-list stub used to instantiate the external decoder at a concrete
input. -/
def c5DecodeList : List Nat → Option (List RLPItem) :=
  fun _ => some [RLPItem.bytes [], RLPItem.bytes [1]]

/-- A decode-account stub used to instantiate the external decoder at a
concrete input. -/
def c5DecodeAccount : List Nat → Option Account :=
  fun _ => some ⟨5, 100, "aa", [7]⟩

/-- The zero Ethereum address, 20 zero bytes. -/
def zeroAddr : List Nat :=
  List.replicate 20 0

/-- Modelled from the spec: shared.HandleZeroAddr is not under src; per spec 3
the Receipt contract-address field is empty if there is none, i.e. when the
receipt carries the zero address, and otherwise it is the address string. The
address-to-string encoding of the go-ethereum common library is a parameter. -/
def handleZeroAddr (addrHex : List Nat → String) (a : List Nat) : String :=
  if a = zeroAddr then "" else addrHex a

/-- The contract-related fields set on lines 246-259 and used by TxModel and
ReceiptModel on lines 261-286. -/
structure ContractInfo where
  deployment : Bool
  contract : String
  contractHash : String
deriving DecidableEq, Repr

/-- A raw blob written by shared.PublishRaw, modelled from the spec (4.2): the
bytes are stored under the key derived from the multihash of the bytes, here the
KECCAK-256 digest computed by the hash-function parameter. -/
structure RawBlob where
  key : List Nat
  data : List Nat
deriving DecidableEq, Repr

/-- Lines 245-259 of processReceiptsAndTxs for one receipt: HandleZeroAddr on
the receipt contract address; when the resulting string is nonempty the
deployment flag is set, the contract hash is the KECCAK-256 hash of the address
bytes recovered from the string, and the transaction data is published as a raw
blob keyed by its KECCAK-256 multihash. keccak, the address hex encoding, its
parse and the hash-to-string rendering are external library functions passed as
parameters. -/
def processContractData (keccak : List Nat → List Nat) (addrHex : List Nat → String)
    (hexToAddr : String → List Nat) (hashStr : List Nat → String)
    (contractAddress txData : List Nat) : ContractInfo × List RawBlob :=
  let contract := handleZeroAddr addrHex contractAddress
  if contract ≠ "" then
    (⟨true, contract, hashStr (keccak (hexToAddr contract))⟩, [⟨keccak txData, txData⟩])
  else
    (⟨false, contract, ""⟩, [])

/-- Lower-case hex digit for a value below 16. -/
def hexDigitChar (n : Nat) : Char :=
  if n < 10 then Char.ofNat (48 + n) else Char.ofNat (87 + n)

/-- Lower-case hex rendering of a byte list. -/
def bytesToHex (bs : List Nat) : String :=
  String.mk (bs.foldr (fun b acc => hexDigitChar (b / 16 % 16) :: hexDigitChar (b % 16) :: acc) [])

/-- A concrete address-to-string encoding in the shape of common.Address.String:
0x followed by the hex bytes. -/
def addrHexLower (a : List Nat) : String :=
  "0x" ++ bytesToHex a

/-- Value of a lower-case hex digit character. -/
def hexCharVal (c : Char) : Nat :=
  if 97 ≤ c.toNat then c.toNat - 87 else c.toNat - 48

/-- Parse pairs of hex digits into bytes. -/
def hexPairsToBytes : List Char → List Nat
  | c1 :: c2 :: rest => (hexCharVal c1 * 16 + hexCharVal c2) :: hexPairsToBytes rest
  | _ => []

/-- A concrete string-to-address decoding in the shape of
common.HexToAddress(s).Bytes(): drop the 0x prefix and parse hex bytes. -/
def hexToAddrBytes (s : String) : List Nat :=
  hexPairsToBytes (s.data.drop 2)

/-- A concrete nonzero contract address. -/
def c6Addr : List Nat :=
  List.replicate 19 0 ++ [1]

/-- Database state visible to the gap finder: the block numbers present in
eth.header_cids and the rows of the eth.gaps table. -/
structure GapDb where
  headers : List Int
  gaps : List (Int × Int)
deriving DecidableEq, Repr

/-- Executable model of the query text migrateEmptyGapsPgStr
(src/unnamed/part_000 lines 22-28): for each header h such that no header exists
at h+1 (left join r null) while some header exists above h (fr not null), one
row (h+1, min above - 1). -/
def emptyGapRows (headers : List Int) : List (Int × Int) :=
  headers.filterMap (fun h =>
    if headers.contains (h + 1) then none
    else
      match (headers.filter (fun b => h < b)).min? with
      | none => none
      | some m => some (h + 1, m - 1))

/-- The ON CONFLICT (start, stop) DO NOTHING insertion of the same query. -/
def insertGapRows (gaps newRows : List (Int × Int)) : List (Int × Int) :=
  newRows.foldl (fun acc g => if acc.contains g then acc else acc ++ [g]) gaps

/-- What executing the empty-range scan would do to the database. -/
def runEmptyRangeScan (db : GapDb) : GapDb :=
  ⟨db.headers, insertGapRows db.gaps (emptyGapRows db.headers)⟩

/-- FindGaps as written (src/unnamed/part_000 lines 44-46): the function body is
empty, so the database is untouched and no value is produced (as Go the function
does not even compile, being declared to return error with no return
statement). -/
def FindGaps (db : GapDb) : GapDb :=
  db

/-- Claim C1 theorem. At lengths (1, 2, 2, 2) one pairwise equality fails, so
the spec requires rejection, but the source check joins its inequalities with
conjunction and lets the payload proceed to open a database transaction. -/
theorem c1_shape_gate_accepts_mismatch :
    specShapeMismatchCheck 1 2 2 2 = true ∧
    shapeMismatchCheck 1 2 2 2 = false ∧
    transformShapeGate 1 2 2 2 = PreBeginStep.beginTx := by
  decide

/-- Claim C2 theorem. With every step before the state-object decode succeeding
and the state-object rlp malformed, the error is assigned to an err shadowed
inside the if statement, the deferred function sees a nil function-scope err and
attempts to COMMIT the transaction (making the header, transaction and receipt
rows visible) while Transform returns (0, DecodeError). -/
theorem c2_shadowed_error_commits :
    transformAfterBegin 7
      ⟨StepRes.ok, StepRes.ok, StepRes.ok, StepRes.fail GoErr.decodeError,
        StepRes.ok, none⟩ =
      (TxFate.commitAttempted, FnOut.returns (0, some GoErr.decodeError)) := by
  decide

/-- Claim C7: if any step between opening the transaction and commit panics,
the transaction is rolled back and the same panic value is re-raised; the
panicking path never commits. -/
theorem c7_panic_rollback_repanic (blockNumber : Int) (r : TransformRun) (p : Nat)
    (h : (transformBody blockNumber r).2 = BodyOut.panicked p) :
    transformAfterBegin blockNumber r = (TxFate.rolledBack, FnOut.panics p) := by
  simp [transformAfterBegin, runDeferred, h]

theorem c7_panic_witness :
    transformAfterBegin 5
      ⟨StepRes.ok, StepRes.panicked 3, StepRes.ok, StepRes.ok, StepRes.ok, none⟩ =
      (TxFate.rolledBack, FnOut.panics 3) :=
  c7_panic_rollback_repanic 5
    ⟨StepRes.ok, StepRes.panicked 3, StepRes.ok, StepRes.ok, StepRes.ok, none⟩ 3 rfl

/-- Claim C9: when every step succeeds and the final commit fails, the commit
error is assigned to the local err only after the unnamed return values were
fixed, so the caller receives the block number together with a nil error. -/
theorem c9_commit_error_swallowed (blockNumber : Int) (e : GoErr) :
    transformAfterBegin blockNumber
      ⟨StepRes.ok, StepRes.ok, StepRes.ok, StepRes.ok, StepRes.ok, some e⟩ =
      (TxFate.commitAttempted, FnOut.returns (blockNumber, none)) := rfl

theorem appendAt_cons (x : List String) (sets : List (List String)) (i : Nat) (t : String) :
    appendAt (x :: sets) (i + 1) t = (appendAt sets i t).map (fun l => x :: l) := by
  by_cases h : i < sets.length
  · simp [appendAt, h, Nat.succ_lt_succ_iff]
  · simp [appendAt, h, Nat.succ_lt_succ_iff]

theorem appendTopicsAux_cons_succ (topics : List String) (x : List String)
    (sets : List (List String)) (i : Nat) :
    appendTopicsAux (x :: sets) topics (i + 1) =
      (appendTopicsAux sets topics i).map (fun l => x :: l) := by
  induction topics generalizing sets i with
  | nil => simp [appendTopicsAux]
  | cons t ts ih =>
    simp only [appendTopicsAux, appendAt_cons]
    cases h : appendAt sets i t with
    | none => simp
    | some s2 => simp [ih]

theorem appendTopicsAux_eq_distribute (topics : List String) (sets : List (List String))
    (h : topics.length ≤ sets.length) :
    appendTopicsAux sets topics 0 = some (distributeTopics sets topics) := by
  induction topics generalizing sets with
  | nil => cases sets <;> simp [appendTopicsAux, distributeTopics]
  | cons t ts ih =>
    cases sets with
    | nil => simp at h
    | cons s sets2 =>
      have h0 : appendAt (s :: sets2) 0 t = some ((s ++ [t]) :: sets2) := by
        simp [appendAt]
      simp only [appendTopicsAux, h0, appendTopicsAux_cons_succ, distributeTopics]
      have hts : ts.length ≤ sets2.length := by
        simpa using h
      rw [ih sets2 hts]
      rfl

theorem appendTopicsAux_overflow (topics : List String) (sets : List (List String))
    (h : sets.length < topics.length) :
    appendTopicsAux sets topics 0 = none := by
  induction topics generalizing sets with
  | nil => simp at h
  | cons t ts ih =>
    cases sets with
    | nil => simp [appendTopicsAux, appendAt]
    | cons s sets2 =>
      have h0 : appendAt (s :: sets2) 0 t = some ((s ++ [t]) :: sets2) := by
        simp [appendAt]
      have hts : sets2.length < ts.length := by
        simpa using h
      simp only [appendTopicsAux, h0, appendTopicsAux_cons_succ]
      rw [ih sets2 hts]
      rfl

theorem distributeTopics_four (topics : List String) (h : topics.length ≤ 4)
    (a b c d : List String) :
    distributeTopics [a, b, c, d] topics =
      [a ++ (topics[0]?).toList, b ++ (topics[1]?).toList,
       c ++ (topics[2]?).toList, d ++ (topics[3]?).toList] := by
  cases topics with
  | nil => simp [distributeTopics]
  | cons t0 ts0 =>
    cases ts0 with
    | nil => simp [distributeTopics]
    | cons t1 ts1 =>
      cases ts1 with
      | nil => simp [distributeTopics]
      | cons t2 ts2 =>
        cases ts2 with
        | nil => simp [distributeTopics]
        | cons t3 ts3 =>
          cases ts3 with
          | nil => simp [distributeTopics]
          | cons t4 ts4 =>
            simp only [List.length_cons] at h
            omega

theorem topicColumn_cons (log : LogEntry) (rest : List LogEntry) (n : Nat) :
    topicColumn (log :: rest) n = (log.topics[n]?).toList ++ topicColumn rest n := by
  cases h : log.topics[n]? <;> simp [topicColumn, List.filterMap_cons, h]

theorem extractTopicSetsFrom_cons_some (sets s2 : List (List String)) (log : LogEntry)
    (rest : List LogEntry) (h : appendTopicsAux sets log.topics 0 = some s2) :
    extractTopicSetsFrom sets (log :: rest) = extractTopicSetsFrom s2 rest := by
  simp [extractTopicSetsFrom, h]

theorem extractTopicSetsFrom_four (logs : List LogEntry) :
    ∀ a b c d : List String, (∀ l ∈ logs, l.topics.length ≤ 4) →
      extractTopicSetsFrom [a, b, c, d] logs =
        some [a ++ topicColumn logs 0, b ++ topicColumn logs 1,
              c ++ topicColumn logs 2, d ++ topicColumn logs 3] := by
  induction logs with
  | nil =>
    intro a b c d h
    simp [extractTopicSetsFrom, topicColumn]
  | cons log rest ih =>
    intro a b c d h
    have h1 : log.topics.length ≤ 4 := h log (by simp)
    have h2 : ∀ l ∈ rest, l.topics.length ≤ 4 := fun l hl => h l (by simp [hl])
    have hle : log.topics.length ≤ ([a, b, c, d] : List (List String)).length := by
      simpa using h1
    have hd := appendTopicsAux_eq_distribute log.topics [a, b, c, d] hle
    rw [distributeTopics_four log.topics h1 a b c d] at hd
    rw [extractTopicSetsFrom_cons_some _ _ _ _ hd, ih _ _ _ _ h2]
    simp [topicColumn_cons, List.append_assoc]

theorem distributeTopics_length (sets : List (List String)) (topics : List String) :
    (distributeTopics sets topics).length = sets.length := by
  induction sets generalizing topics with
  | nil => cases topics <;> simp [distributeTopics]
  | cons s sets2 ih =>
    cases topics with
    | nil => simp [distributeTopics]
    | cons t ts => simp [distributeTopics, ih]

theorem extractTopicSetsFrom_none_iff (logs : List LogEntry) :
    ∀ sets : List (List String), sets.length = 4 →
      (extractTopicSetsFrom sets logs = none ↔ ∃ l ∈ logs, 4 < l.topics.length) := by
  induction logs with
  | nil =>
    intro sets hs
    simp [extractTopicSetsFrom]
  | cons log rest ih =>
    intro sets hs
    by_cases h4 : log.topics.length ≤ 4
    · have hd := appendTopicsAux_eq_distribute log.topics sets (by omega)
      rw [extractTopicSetsFrom_cons_some _ _ _ _ hd]
      rw [ih _ (by rw [distributeTopics_length]; exact hs)]
      constructor
      · rintro ⟨x, hx, hgt⟩
        exact ⟨x, by simp [hx], hgt⟩
      · rintro ⟨x, hx, hgt⟩
        rcases List.mem_cons.mp hx with rfl | hx2
        · omega
        · exact ⟨x, hx2, hgt⟩
    · have hn := appendTopicsAux_overflow log.topics sets (by omega)
      have he : extractTopicSetsFrom sets (log :: rest) = none := by
        simp [extractTopicSetsFrom, hn]
      rw [he]
      constructor
      · intro _
        exact ⟨log, by simp, by omega⟩
      · intro _
        rfl

theorem extractTopicSets_none_iff (logs : List LogEntry) :
    extractTopicSets logs = none ↔ ∃ l ∈ logs, 4 < l.topics.length :=
  extractTopicSetsFrom_none_iff logs (List.replicate 4 []) (by simp)

/-- Claim C3 counterexample: for a receipt whose first log has one topic and
whose second log has two, the source stores the second log's topic1 at position
0 of topic1s with no empty-string slot for the first log, so the stored arrays
differ from the spec-aligned arrays. -/
theorem c3_alignment_cex :
    extractTopicSets c3Logs = some [["a", "b"], ["c"], [], []] ∧
    specTopicSets c3Logs = [["a", "b"], ["", "c"], ["", ""], ["", ""]] ∧
    extractTopicSets c3Logs ≠ some (specTopicSets c3Logs) := by
  decide

/-- Claim C3 theorem (amended): for every receipt whose logs all carry at most
four topics, the stored topicN array is the in-order list of the N-th topics of
exactly those logs having more than N topics; logs with fewer topics contribute
no slot at all (no empty-string padding), so the arrays are compacted rather
than position-aligned. -/
theorem c3_topic_columns (logs : List LogEntry)
    (h : ∀ l ∈ logs, l.topics.length ≤ 4) :
    extractTopicSets logs =
      some [topicColumn logs 0, topicColumn logs 1,
            topicColumn logs 2, topicColumn logs 3] := by
  have h4 := extractTopicSetsFrom_four logs [] [] [] [] h
  simp only [List.nil_append] at h4
  exact h4

theorem c3_topic_columns_witness :
    extractTopicSets c3Logs =
      some [topicColumn c3Logs 0, topicColumn c3Logs 1,
            topicColumn c3Logs 2, topicColumn c3Logs 3] :=
  c3_topic_columns c3Logs (by decide)

/-- Claim C10: the per-receipt topic extraction panics (index out of range on
the fixed four-slot topicSets) exactly when some log of some receipt carries
more than four topics, so Transform avoids the panic precisely under the
precondition that every log in every receipt has at most four topics. -/
theorem c10_topic_overflow_panics (receipts : List (List LogEntry)) :
    extractPerReceipt receipts = none ↔
      ∃ r ∈ receipts, ∃ l ∈ r, 4 < l.topics.length := by
  induction receipts with
  | nil => simp [extractPerReceipt]
  | cons r rs ih =>
    cases h : extractTopicSets r with
    | none =>
      have hex := (extractTopicSets_none_iff r).mp h
      simp only [extractPerReceipt, h]
      constructor
      · intro _
        exact ⟨r, by simp, hex⟩
      · intro _
        trivial
    | some s =>
      have hnot : ¬ ∃ l ∈ r, 4 < l.topics.length := by
        intro hc
        have hcontra := (extractTopicSets_none_iff r).mpr hc
        rw [h] at hcontra
        exact Option.noConfusion hcontra
      simp only [extractPerReceipt, h]
      rw [Option.map_eq_none', ih]
      constructor
      · rintro ⟨x, hx, hlx⟩
        exact ⟨x, by simp [hx], hlx⟩
      · rintro ⟨x, hx, hlx⟩
        rcases List.mem_cons.mp hx with rfl | hx2
        · exact absurd hlx hnot
        · exact ⟨x, hx2, hlx⟩

theorem foldlAppendAcc (l acc : List String) :
    l.foldl (fun a x => a ++ [x]) acc = acc ++ l := by
  induction l generalizing acc with
  | nil => simp
  | cons x xs ih => simp [List.foldl_cons, ih, List.append_assoc]

theorem logContractsOf_eq_order (order : List String) : logContractsOf order = order := by
  simpa using foldlAppendAcc order []

/-- Claim C4 counterexample: for a receipt with logs from two distinct
addresses, both enumeration orders of the map key set are admissible runs, and
they store different logContracts lists, so two runs need not agree on element
order. -/
theorem c4_order_cex :
    isMapIterOrder c4Logs ["0xaa", "0xbb"] ∧
    isMapIterOrder c4Logs ["0xbb", "0xaa"] ∧
    logContractsOf ["0xaa", "0xbb"] ≠ logContractsOf ["0xbb", "0xaa"] := by
  refine ⟨?_, ?_, by decide⟩
  · unfold isMapIterOrder
    decide
  · unfold isMapIterOrder
    decide

/-- Claim C4 theorem (amended): across two runs on the same payload the stored
logContracts lists are permutations of each other (both enumerate the
deduplicated log-address set, duplicate-free); only their element order, which
follows the unspecified map iteration order, may differ. -/
theorem c4_log_contracts_up_to_perm (logs : List LogEntry) (o1 o2 : List String)
    (h1 : isMapIterOrder logs o1) (h2 : isMapIterOrder logs o2) :
    (logContractsOf o1).Perm (logContractsOf o2) ∧ (logContractsOf o1).Nodup := by
  rw [logContractsOf_eq_order, logContractsOf_eq_order]
  exact ⟨h1.trans h2.symm, h1.symm.nodup (List.nodup_dedup _)⟩

theorem c4_log_contracts_up_to_perm_witness :
    (logContractsOf ["0xaa", "0xbb"]).Perm (logContractsOf ["0xbb", "0xaa"]) ∧
    (logContractsOf ["0xaa", "0xbb"]).Nodup :=
  c4_log_contracts_up_to_perm c4Logs ["0xaa", "0xbb"] ["0xbb", "0xaa"]
    (by unfold isMapIterOrder; decide) (by unfold isMapIterOrder; decide)

/-- Claim C5: a StateAccount row is produced exactly for leaf state nodes; for a
leaf the node value must decode to a two-element list whose second element
decodes to an account populating the row fields, and a decode failure or a list
whose length is not two aborts with an error return. -/
theorem c5_state_account_leaf (dl : List Nat → Option (List RLPItem))
    (da : List Nat → Option Account) (node : StateNodeIn) :
    (node.nodeType ≠ StateNodeType.leaf →
      processStateLeaf dl da node = AccountOutcome.noRow) ∧
    (∀ m, processStateLeaf dl da node = AccountOutcome.row m →
      node.nodeType = StateNodeType.leaf) ∧
    (node.nodeType = StateNodeType.leaf → dl node.nodeValue = none →
      processStateLeaf dl da node = AccountOutcome.errOut GoErr.decodeError) ∧
    (∀ items, node.nodeType = StateNodeType.leaf → dl node.nodeValue = some items →
      items.length ≠ 2 →
      processStateLeaf dl da node = AccountOutcome.errOut GoErr.lenError) ∧
    (∀ x b a, node.nodeType = StateNodeType.leaf →
      dl node.nodeValue = some [x, RLPItem.bytes b] → da b = some a →
      processStateLeaf dl da node =
        AccountOutcome.row ⟨toString a.balance, a.nonce, a.codeHash, a.root⟩) ∧
    (∀ x b, node.nodeType = StateNodeType.leaf →
      dl node.nodeValue = some [x, RLPItem.bytes b] → da b = none →
      processStateLeaf dl da node = AccountOutcome.errOut GoErr.decodeError) := by
  refine ⟨?_, ?_, ?_, ?_, ?_, ?_⟩
  · intro hne
    simp [processStateLeaf, hne]
  · intro m hm
    by_contra hne
    simp [processStateLeaf, hne] at hm
  · intro hl hd
    simp [processStateLeaf, hl, hd]
  · intro items hl hd hlen
    simp [processStateLeaf, hl, hd, hlen]
  · intro x b a hl hd hda
    simp [processStateLeaf, hl, hd, hda]
  · intro x b hl hd hda
    simp [processStateLeaf, hl, hd, hda]

theorem c5_state_account_leaf_witness :
    processStateLeaf c5DecodeList c5DecodeAccount ⟨StateNodeType.leaf, [0]⟩ =
      AccountOutcome.row ⟨toString (100 : Int), 5, [7], "aa"⟩ :=
  (c5_state_account_leaf c5DecodeList c5DecodeAccount ⟨StateNodeType.leaf, [0]⟩).2.2.2.2.1
    (RLPItem.bytes []) [1] ⟨5, 100, "aa", [7]⟩ rfl rfl rfl

/-- Claim C6: for a nonzero contract address the deployment flag is set, the
receipt records the KECCAK-256 hash of the contract address bytes, and the
transaction data is published as a raw blob keyed by its KECCAK-256 multihash;
for the zero address the flag is false, the contract and contract-hash fields
are empty, and nothing is published. The two library hypotheses say that the
address hex string parses back to the address bytes and is nonempty. -/
theorem c6_contract_creation (keccak : List Nat → List Nat)
    (addrHex : List Nat → String) (hexToAddr : String → List Nat)
    (hashStr : List Nat → String) (ca txData : List Nat)
    (hround : hexToAddr (addrHex ca) = ca)
    (hne : ca ≠ zeroAddr → addrHex ca ≠ "") :
    (ca ≠ zeroAddr →
      processContractData keccak addrHex hexToAddr hashStr ca txData =
        (⟨true, addrHex ca, hashStr (keccak ca)⟩, [⟨keccak txData, txData⟩])) ∧
    (ca = zeroAddr →
      processContractData keccak addrHex hexToAddr hashStr ca txData =
        (⟨false, "", ""⟩, [])) := by
  constructor
  · intro h
    simp [processContractData, handleZeroAddr, h, hne h, hround]
  · intro h
    simp [processContractData, handleZeroAddr, h]

theorem c6_contract_creation_witness :
    processContractData (fun b => b) addrHexLower hexToAddrBytes (fun _ => "hh")
        c6Addr [9] =
      (⟨true, addrHexLower c6Addr, "hh"⟩, [⟨[9], [9]⟩]) :=
  (c6_contract_creation (fun b => b) addrHexLower hexToAddrBytes (fun _ => "hh")
    c6Addr [9] (by decide) (by decide)).1 (by decide)

/-- Claim C8 theorem: on a header index with blocks 10, 11, 15, 16 the
empty-range scan described by the claim (and by the query text kept in the same
source file) inserts the gap (12, 14), and running it again changes nothing,
but FindGaps as implemented has an empty body and leaves the database
untouched. -/
theorem c8_findgaps_does_nothing :
    FindGaps ⟨[10, 11, 15, 16], []⟩ = ⟨[10, 11, 15, 16], []⟩ ∧
    runEmptyRangeScan ⟨[10, 11, 15, 16], []⟩ = ⟨[10, 11, 15, 16], [(12, 14)]⟩ ∧
    runEmptyRangeScan (runEmptyRangeScan ⟨[10, 11, 15, 16], []⟩) =
      runEmptyRangeScan ⟨[10, 11, 15, 16], []⟩ ∧
    FindGaps ⟨[10, 11, 15, 16], []⟩ ≠ runEmptyRangeScan ⟨[10, 11, 15, 16], []⟩ := by
  refine ⟨rfl, by decide, by decide, by decide⟩
